/-
Verification of the certify certificate-rendering pipeline.

This file shallowly embeds the two rendering entry points of the repository:
 * `generate_certs.py` (the multiprocessing batch CLI), and
 * `backend/main.py` (the FastAPI web wrapper),
and proves properties of the auto-fit text layout, font loading/caching,
batch processing and record handling.

Modelling conventions:
 * Python ints are `Int`; Python floor division `//` is `Int.fdiv`.
 * `draw.textbbox((0, 0), text, font)` is an abstract measurement oracle.
   For the batch variant the font used at a given pixel size is determined by
   the size (the worker font cache is coherent: every entry stores exactly the
   font the loader would produce for that size), so measurement is a function
   `Int → Bbox` of the size.  For the web variant the font is re-loaded on
   every iteration, so measurement is a function of the loaded `Font`.
 * PIL font objects are the inductive `Font`: a truetype font is determined by
   its (path, size); `Font.load_default` is PIL's built-in fallback.
   Filesystem behaviour (which paths exist, which loads succeed) is an
   abstract `FontEnv`; a failing `ImageFont.truetype` call (an exception in
   Python, caught by the callers) is modelled as `none`.
 * PIL images live in an explicit heap (`WorkerImages`): `img.copy()`
   allocates a fresh cell, `draw.text` mutates one cell in place.  This makes
   the "renders never mutate the shared template" claim a real statement.
 * `img.save(...)` may raise; an abstract `saveErr` oracle gives the raised
   message (or `none` for success).  This is the per-job failure point.
-/

import Mathlib

/-- A PIL bounding box `(x0, y0, x1, y1)` as returned by `draw.textbbox`. -/
structure Bbox where
  x0 : Int
  y0 : Int
  x1 : Int
  y1 : Int
deriving DecidableEq

/-- A PIL font object.  `ImageFont.truetype(path, size)` yields a font
determined by the path and pixel size; `ImageFont.load_default()` is the
built-in minimal fallback font. -/
inductive Font where
  | truetype (path : String) (size : Int)
  | load_default
deriving DecidableEq

/-- Abstract filesystem/font-engine environment: which paths exist, and which
`ImageFont.truetype(path, size)` calls succeed.  A `loadOk = false` call
models the exception that the Python callers catch. -/
structure FontEnv where
  pathExists : String → Bool
  loadOk : String → Int → Bool

/-- `ImageFont.truetype(path, size)` under environment `env`: `some` font on
success, `none` when the call raises. -/
def truetypeLoad (env : FontEnv) (path : String) (size : Int) : Option Font :=
  if env.loadOk path size then some (Font.truetype path size) else none

/-! ## Batch variant constants (`generate_certs.py`) -/

def BOX_X : Int := 579
def BOX_Y : Int := 611
def BOX_W : Int := 840
def BOX_H : Int := 199

/-! ## `find_font_size` (generate_certs.py lines 116-128)

```python
size = max_size
while size >= 20:
    font = get_font(size)
    bbox = draw.textbbox((0, 0), text, font=font)
    text_w = bbox[2] - bbox[0]
    text_h = bbox[3] - bbox[1]
    if text_w <= box_w - 20 and text_h <= box_h - 20:
        return size
    size -= 4
return 20
```
`meas size` is `draw.textbbox((0, 0), text, font=get_font(size))`. -/

def find_font_size (meas : Int → Bbox) (max_size box_w box_h : Int) : Int :=
  if h : 20 ≤ max_size then
    if (meas max_size).x1 - (meas max_size).x0 ≤ box_w - 20 ∧
        (meas max_size).y1 - (meas max_size).y0 ≤ box_h - 20 then
      max_size
    else
      find_font_size meas (max_size - 4) box_w box_h
  else 20
termination_by (max_size - 19).toNat
decreasing_by simp_wf; omega

/-- The descending sequence of sizes the batch loop examines:
`max_size, max_size - 4, ...` down to the floor 20. -/
def fit_candidates (max_size : Int) : List Int :=
  if h : 20 ≤ max_size then max_size :: fit_candidates (max_size - 4) else []
termination_by (max_size - 19).toNat
decreasing_by simp_wf; omega

/-- The batch acceptance test: measured width and height both fit in the box
minus the padding of 20. -/
def batchFitsB (meas : Int → Bbox) (box_w box_h size : Int) : Bool :=
  decide ((meas size).x1 - (meas size).x0 ≤ box_w - 20 ∧
    (meas size).y1 - (meas size).y0 ≤ box_h - 20)

theorem find_font_size_eq_find (meas : Int → Bbox) (box_w box_h max_size : Int) :
    find_font_size meas max_size box_w box_h =
      ((fit_candidates max_size).find? (batchFitsB meas box_w box_h)).getD 20 := by
  rw [find_font_size, fit_candidates]
  by_cases h : 20 ≤ max_size
  · rw [dif_pos h, dif_pos h]
    by_cases hf : (meas max_size).x1 - (meas max_size).x0 ≤ box_w - 20 ∧
        (meas max_size).y1 - (meas max_size).y0 ≤ box_h - 20
    · rw [if_pos hf, List.find?_cons_of_pos _ (by simp only [batchFitsB, decide_eq_true_eq]; exact hf),
        Option.getD_some]
    · rw [if_neg hf, List.find?_cons_of_neg _ (by simp only [batchFitsB, decide_eq_true_eq]; exact hf)]
      exact find_font_size_eq_find meas box_w box_h (max_size - 4)
  · rw [dif_neg h, dif_neg h]
    simp [List.find?]
termination_by (max_size - 19).toNat
decreasing_by simp_wf; omega

theorem find_font_size_ge (meas : Int → Bbox) (box_w box_h max_size : Int) :
    20 ≤ find_font_size meas max_size box_w box_h := by
  rw [find_font_size]
  by_cases h : 20 ≤ max_size
  · rw [dif_pos h]
    by_cases hf : (meas max_size).x1 - (meas max_size).x0 ≤ box_w - 20 ∧
        (meas max_size).y1 - (meas max_size).y0 ≤ box_h - 20
    · rw [if_pos hf]; exact h
    · rw [if_neg hf]; exact find_font_size_ge meas box_w box_h (max_size - 4)
  · rw [dif_neg h]
termination_by (max_size - 19).toNat
decreasing_by simp_wf; omega

theorem find_font_size_le (meas : Int → Bbox) (box_w box_h max_size : Int)
    (h : 20 ≤ max_size) : find_font_size meas max_size box_w box_h ≤ max_size := by
  rw [find_font_size, dif_pos h]
  by_cases hf : (meas max_size).x1 - (meas max_size).x0 ≤ box_w - 20 ∧
      (meas max_size).y1 - (meas max_size).y0 ≤ box_h - 20
  · rw [if_pos hf]
  · rw [if_neg hf]
    by_cases h4 : 20 ≤ max_size - 4
    · exact le_trans (find_font_size_le meas box_w box_h (max_size - 4) h4) (by omega)
    · rw [find_font_size, dif_neg h4]; omega
termination_by (max_size - 19).toNat
decreasing_by simp_wf; omega

theorem find_font_size_of_lt (meas : Int → Bbox) (box_w box_h max_size : Int)
    (h : ¬ 20 ≤ max_size) : find_font_size meas max_size box_w box_h = 20 := by
  rw [find_font_size, dif_neg h]

theorem find_font_size_mono (meas : Int → Bbox) (bw₁ bh₁ bw₂ bh₂ max_size : Int)
    (hw : bw₁ ≤ bw₂) (hh : bh₁ ≤ bh₂) :
    find_font_size meas max_size bw₁ bh₁ ≤ find_font_size meas max_size bw₂ bh₂ := by
  conv_lhs => rw [find_font_size]
  conv_rhs => rw [find_font_size]
  by_cases h : 20 ≤ max_size
  · rw [dif_pos h, dif_pos h]
    by_cases hf₁ : (meas max_size).x1 - (meas max_size).x0 ≤ bw₁ - 20 ∧
        (meas max_size).y1 - (meas max_size).y0 ≤ bh₁ - 20
    · have hf₂ : (meas max_size).x1 - (meas max_size).x0 ≤ bw₂ - 20 ∧
          (meas max_size).y1 - (meas max_size).y0 ≤ bh₂ - 20 := ⟨by omega, by omega⟩
      rw [if_pos hf₁, if_pos hf₂]
    · rw [if_neg hf₁]
      by_cases hf₂ : (meas max_size).x1 - (meas max_size).x0 ≤ bw₂ - 20 ∧
          (meas max_size).y1 - (meas max_size).y0 ≤ bh₂ - 20
      · rw [if_pos hf₂]
        by_cases h4 : 20 ≤ max_size - 4
        · exact le_trans (find_font_size_le meas bw₁ bh₁ (max_size - 4) h4) (by omega)
        · rw [find_font_size_of_lt meas bw₁ bh₁ _ h4]; omega
      · rw [if_neg hf₂]
        exact find_font_size_mono meas bw₁ bh₁ bw₂ bh₂ (max_size - 4) hw hh
  · rw [dif_neg h, dif_neg h]
termination_by (max_size - 19).toNat
decreasing_by all_goals simp_wf; omega

theorem fit_candidates_of_lt (max_size : Int) (h : ¬ 20 ≤ max_size) :
    fit_candidates max_size = [] := by
  rw [fit_candidates, dif_neg h]

/-! ## `load_font` (backend/main.py lines 71-94)

```python
font_path = FONTS_DIR / font_filename
if font_path.exists():
    try:
        return ImageFont.truetype(str(font_path), font_size)
    except (OSError, IOError):
        pass
fallback_paths = [...]
for path in fallback_paths:
    try:
        return ImageFont.truetype(path, font_size)
    except (OSError, IOError):
        continue
return ImageFont.load_default()
``` -/

def FONTS_DIR : String := "fonts"

/-- The ordered platform-default fallback paths of `load_font`. -/
def fallback_paths : List String :=
  ["/usr/share/fonts/truetype/dejavu/DejaVuSans.ttf",
   "/usr/share/fonts/truetype/liberation/LiberationSans-Regular.ttf",
   "C:/Windows/Fonts/arial.ttf"]

/-- The `for path in fallback_paths` loop: first path whose load succeeds. -/
def tryFallbacks (env : FontEnv) (font_size : Int) : List String → Option Font
  | [] => none
  | p :: rest =>
    match truetypeLoad env p font_size with
    | some f => some f
    | none => tryFallbacks env font_size rest

def load_font (env : FontEnv) (font_filename : String) (font_size : Int) : Font :=
  match (if env.pathExists (FONTS_DIR ++ "/" ++ font_filename) then
      truetypeLoad env (FONTS_DIR ++ "/" ++ font_filename) font_size else none) with
  | some f => f
  | none =>
    match tryFallbacks env font_size fallback_paths with
    | some f => f
    | none => Font.load_default

/-- The fallback chain exactly as the claim words it: attempt the configured
font resource; on failure fall back through an ordered list of
platform-default font resource paths; if all of those fail, return the
built-in minimal fallback font.  Stated separately from the code so the two
can be compared. -/
def claimedFontFallback (env : FontEnv) (configured : String)
    (platformPaths : List String) (size : Int) : Font :=
  match truetypeLoad env configured size with
  | some f => f
  | none =>
    match tryFallbacks env size platformPaths with
    | some f => f
    | none => Font.load_default

/-! ## `get_font_for_text` (backend/main.py lines 97-129)

```python
font_size = max_font_size
min_font_size = 10
while font_size >= min_font_size:
    font = load_font(font_filename, font_size)
    bbox = tmp_draw.textbbox((0, 0), name, font=font)
    text_w = bbox[2] - bbox[0]
    text_h = bbox[3] - bbox[1]
    if text_w <= box_w - 10 and text_h <= box_h - 10:
        return font, font_size
    font_size -= 2
return load_font(font_filename, min_font_size), min_font_size
```
`measF name font` is `tmp_draw.textbbox((0, 0), name, font=font)`. -/

def get_font_for_text (env : FontEnv) (measF : String → Font → Bbox) (name : String)
    (box_w box_h max_font_size : Int) (font_filename : String) : Font × Int :=
  if h : 10 ≤ max_font_size then
    if (measF name (load_font env font_filename max_font_size)).x1 -
          (measF name (load_font env font_filename max_font_size)).x0 ≤ box_w - 10 ∧
        (measF name (load_font env font_filename max_font_size)).y1 -
          (measF name (load_font env font_filename max_font_size)).y0 ≤ box_h - 10 then
      (load_font env font_filename max_font_size, max_font_size)
    else
      get_font_for_text env measF name box_w box_h (max_font_size - 2) font_filename
  else (load_font env font_filename 10, 10)
termination_by (max_font_size - 9).toNat
decreasing_by simp_wf; omega

/-- The descending sequence of sizes the web loop examines:
`max_font_size, max_font_size - 2, ...` down to the floor 10. -/
def web_candidates (max_font_size : Int) : List Int :=
  if h : 10 ≤ max_font_size then max_font_size :: web_candidates (max_font_size - 2) else []
termination_by (max_font_size - 9).toNat
decreasing_by simp_wf; omega

/-- The web acceptance test at a given size: the text measured with the font
loaded at that size fits in the box minus the padding of 10. -/
def webFitsB (env : FontEnv) (measF : String → Font → Bbox) (name : String)
    (font_filename : String) (box_w box_h size : Int) : Bool :=
  decide ((measF name (load_font env font_filename size)).x1 -
      (measF name (load_font env font_filename size)).x0 ≤ box_w - 10 ∧
    (measF name (load_font env font_filename size)).y1 -
      (measF name (load_font env font_filename size)).y0 ≤ box_h - 10)

theorem get_font_for_text_eq_find (env : FontEnv) (measF : String → Font → Bbox)
    (name : String) (box_w box_h max_font_size : Int) (font_filename : String) :
    get_font_for_text env measF name box_w box_h max_font_size font_filename =
      (load_font env font_filename
        (((web_candidates max_font_size).find?
            (webFitsB env measF name font_filename box_w box_h)).getD 10),
       ((web_candidates max_font_size).find?
            (webFitsB env measF name font_filename box_w box_h)).getD 10) := by
  rw [get_font_for_text, web_candidates]
  by_cases h : 10 ≤ max_font_size
  · rw [dif_pos h, dif_pos h]
    by_cases hf : (measF name (load_font env font_filename max_font_size)).x1 -
          (measF name (load_font env font_filename max_font_size)).x0 ≤ box_w - 10 ∧
        (measF name (load_font env font_filename max_font_size)).y1 -
          (measF name (load_font env font_filename max_font_size)).y0 ≤ box_h - 10
    · rw [if_pos hf, List.find?_cons_of_pos _ (by simp only [webFitsB, decide_eq_true_eq]; exact hf),
        Option.getD_some]
    · rw [if_neg hf, List.find?_cons_of_neg _ (by simp only [webFitsB, decide_eq_true_eq]; exact hf)]
      exact get_font_for_text_eq_find env measF name box_w box_h (max_font_size - 2) font_filename
  · rw [dif_neg h, dif_neg h]
    simp [List.find?]
termination_by (max_font_size - 9).toNat
decreasing_by simp_wf; omega

theorem get_font_for_text_ge (env : FontEnv) (measF : String → Font → Bbox)
    (name : String) (box_w box_h max_font_size : Int) (font_filename : String) :
    10 ≤ (get_font_for_text env measF name box_w box_h max_font_size font_filename).2 := by
  rw [get_font_for_text]
  by_cases h : 10 ≤ max_font_size
  · rw [dif_pos h]
    by_cases hf : (measF name (load_font env font_filename max_font_size)).x1 -
          (measF name (load_font env font_filename max_font_size)).x0 ≤ box_w - 10 ∧
        (measF name (load_font env font_filename max_font_size)).y1 -
          (measF name (load_font env font_filename max_font_size)).y0 ≤ box_h - 10
    · rw [if_pos hf]; exact h
    · rw [if_neg hf]
      exact get_font_for_text_ge env measF name box_w box_h (max_font_size - 2) font_filename
  · rw [dif_neg h]
termination_by (max_font_size - 9).toNat
decreasing_by simp_wf; omega

theorem get_font_for_text_le (env : FontEnv) (measF : String → Font → Bbox)
    (name : String) (box_w box_h max_font_size : Int) (font_filename : String)
    (h : 10 ≤ max_font_size) :
    (get_font_for_text env measF name box_w box_h max_font_size font_filename).2 ≤
      max_font_size := by
  rw [get_font_for_text, dif_pos h]
  by_cases hf : (measF name (load_font env font_filename max_font_size)).x1 -
        (measF name (load_font env font_filename max_font_size)).x0 ≤ box_w - 10 ∧
      (measF name (load_font env font_filename max_font_size)).y1 -
        (measF name (load_font env font_filename max_font_size)).y0 ≤ box_h - 10
  · rw [if_pos hf]
  · rw [if_neg hf]
    by_cases h2 : 10 ≤ max_font_size - 2
    · exact le_trans
        (get_font_for_text_le env measF name box_w box_h (max_font_size - 2) font_filename h2)
        (by omega)
    · rw [get_font_for_text, dif_neg h2]; omega
termination_by (max_font_size - 9).toNat
decreasing_by simp_wf; omega

theorem get_font_for_text_of_lt (env : FontEnv) (measF : String → Font → Bbox)
    (name : String) (box_w box_h max_font_size : Int) (font_filename : String)
    (h : ¬ 10 ≤ max_font_size) :
    get_font_for_text env measF name box_w box_h max_font_size font_filename =
      (load_font env font_filename 10, 10) := by
  rw [get_font_for_text, dif_neg h]

theorem get_font_for_text_mono (env : FontEnv) (measF : String → Font → Bbox)
    (name : String) (bw₁ bh₁ bw₂ bh₂ max_font_size : Int) (font_filename : String)
    (hw : bw₁ ≤ bw₂) (hh : bh₁ ≤ bh₂) :
    (get_font_for_text env measF name bw₁ bh₁ max_font_size font_filename).2 ≤
      (get_font_for_text env measF name bw₂ bh₂ max_font_size font_filename).2 := by
  conv_lhs => rw [get_font_for_text]
  conv_rhs => rw [get_font_for_text]
  by_cases h : 10 ≤ max_font_size
  · rw [dif_pos h, dif_pos h]
    by_cases hf₁ : (measF name (load_font env font_filename max_font_size)).x1 -
          (measF name (load_font env font_filename max_font_size)).x0 ≤ bw₁ - 10 ∧
        (measF name (load_font env font_filename max_font_size)).y1 -
          (measF name (load_font env font_filename max_font_size)).y0 ≤ bh₁ - 10
    · have hf₂ : (measF name (load_font env font_filename max_font_size)).x1 -
            (measF name (load_font env font_filename max_font_size)).x0 ≤ bw₂ - 10 ∧
          (measF name (load_font env font_filename max_font_size)).y1 -
            (measF name (load_font env font_filename max_font_size)).y0 ≤ bh₂ - 10 :=
        ⟨by omega, by omega⟩
      rw [if_pos hf₁, if_pos hf₂]
    · rw [if_neg hf₁]
      by_cases hf₂ : (measF name (load_font env font_filename max_font_size)).x1 -
            (measF name (load_font env font_filename max_font_size)).x0 ≤ bw₂ - 10 ∧
          (measF name (load_font env font_filename max_font_size)).y1 -
            (measF name (load_font env font_filename max_font_size)).y0 ≤ bh₂ - 10
      · rw [if_pos hf₂]
        by_cases h2 : 10 ≤ max_font_size - 2
        · exact le_trans
            (get_font_for_text_le env measF name bw₁ bh₁ (max_font_size - 2) font_filename h2)
            (by omega)
        · rw [get_font_for_text_of_lt env measF name bw₁ bh₁ _ font_filename h2]; omega
      · rw [if_neg hf₂]
        exact get_font_for_text_mono env measF name bw₁ bh₁ bw₂ bh₂ (max_font_size - 2)
          font_filename hw hh
  · rw [dif_neg h, dif_neg h]
termination_by (max_font_size - 9).toNat
decreasing_by all_goals simp_wf; omega

theorem web_candidates_of_lt (max_font_size : Int) (h : ¬ 10 ≤ max_font_size) :
    web_candidates max_font_size = [] := by
  rw [web_candidates, dif_neg h]

/-! ## `get_font` and the worker font cache (generate_certs.py lines 104-113)

```python
def get_font(size: int):
    if size in _worker_font_cache:
        return _worker_font_cache[size]
    try:
        font = ImageFont.truetype(_worker_font_path, size)
    except:
        font = ImageFont.load_default()
    _worker_font_cache[size] = font
    return font
```
The module-level `_worker_font_cache` dict is threaded explicitly as an
association list from size to font. -/

abbrev FontCacheT := List (Int × Font)

def cacheLookup (cache : FontCacheT) (size : Int) : Option Font :=
  match cache.find? (fun e => e.1 == size) with
  | some e => some e.2
  | none => none

def get_font (env : FontEnv) (font_path : String) (cache : FontCacheT) (size : Int) :
    Font × FontCacheT :=
  match cacheLookup cache size with
  | some f => (f, cache)
  | none =>
    match truetypeLoad env font_path size with
    | some f => (f, (size, f) :: cache)
    | none => (Font.load_default, (size, Font.load_default) :: cache)

/-- A sequence of `get_font` calls, returning the final cache state. -/
def runGets (env : FontEnv) (font_path : String) : FontCacheT → List Int → FontCacheT
  | cache, [] => cache
  | cache, s :: rest => runGets env font_path (get_font env font_path cache s).2 rest

theorem get_font_hit (env : FontEnv) (font_path : String) (cache : FontCacheT)
    (size : Int) (f : Font) (h : cacheLookup cache size = some f) :
    get_font env font_path cache size = (f, cache) := by
  rw [get_font, h]

theorem cacheLookup_cons_self (cache : FontCacheT) (size : Int) (f : Font) :
    cacheLookup ((size, f) :: cache) size = some f := by
  simp [cacheLookup, List.find?]

theorem cacheLookup_cons_ne (cache : FontCacheT) (size s' : Int) (f : Font)
    (h : size ≠ s') : cacheLookup ((size, f) :: cache) s' = cacheLookup cache s' := by
  have hb : (size == s') = false := by simpa using h
  simp [cacheLookup, List.find?, hb]

theorem get_font_populates (env : FontEnv) (font_path : String) (cache : FontCacheT)
    (size : Int) :
    cacheLookup (get_font env font_path cache size).2 size =
      some (get_font env font_path cache size).1 := by
  rw [get_font]
  cases h : cacheLookup cache size with
  | some f => exact h
  | none =>
    cases truetypeLoad env font_path size with
    | some f => exact cacheLookup_cons_self cache size f
    | none => exact cacheLookup_cons_self cache size Font.load_default

theorem get_font_preserves (env : FontEnv) (font_path : String) (cache : FontCacheT)
    (size s' : Int) (f : Font) (h : cacheLookup cache s' = some f) :
    cacheLookup (get_font env font_path cache size).2 s' = some f := by
  rw [get_font]
  cases hc : cacheLookup cache size with
  | some g => exact h
  | none =>
    have hne : size ≠ s' := by
      intro he
      rw [he, h] at hc
      exact Option.noConfusion hc
    cases truetypeLoad env font_path size with
    | some g => rw [cacheLookup_cons_ne cache size s' g hne]; exact h
    | none => rw [cacheLookup_cons_ne cache size s' Font.load_default hne]; exact h

theorem runGets_preserves (env : FontEnv) (font_path : String) (reqs : List Int) :
    ∀ (cache : FontCacheT) (s' : Int) (f : Font), cacheLookup cache s' = some f →
      cacheLookup (runGets env font_path cache reqs) s' = some f := by
  induction reqs with
  | nil => intro cache s' f h; exact h
  | cons s rest ih =>
    intro cache s' f h
    exact ih _ s' f (get_font_preserves env font_path cache s s' f h)

/-! ## Draw positions (backend/main.py lines 155-167, generate_certs.py lines 155-160)

Web variant (`draw_certificate`):
```python
text_x = x + (w - text_w) // 2
text_y = y + h - text_h - 5
text_x -= bbox[0]
text_y -= bbox[1]
```
Batch variant (`process_batch`):
```python
text_x = BOX_X + (BOX_W - text_w) // 2
text_y = BOX_Y + (BOX_H - text_h) // 2
```
Note the batch variant performs no `bbox` origin correction. -/

structure PlacementBox where
  x : Int
  y : Int
  w : Int
  h : Int
deriving DecidableEq

def draw_pos_backend (box : PlacementBox) (bbox : Bbox) : Int × Int :=
  (box.x + (box.w - (bbox.x1 - bbox.x0)).fdiv 2 - bbox.x0,
   box.y + box.h - (bbox.y1 - bbox.y0) - 5 - bbox.y0)

def draw_pos_batch (bbox : Bbox) : Int × Int :=
  (BOX_X + (BOX_W - (bbox.x1 - bbox.x0)).fdiv 2,
   BOX_Y + (BOX_H - (bbox.y1 - bbox.y0)).fdiv 2)

/-- The draw position exactly as the claim words it for a center-anchored box:
horizontal `box.x + (box.width - textWidth) // 2` and vertical
`box.y + (box.height - textHeight) // 2`, both then corrected by subtracting
the measured bounding box's own origin offsets `bbox[0]` and `bbox[1]`. -/
def claimedDrawPosCenter (box : PlacementBox) (bbox : Bbox) : Int × Int :=
  (box.x + (box.w - (bbox.x1 - bbox.x0)).fdiv 2 - bbox.x0,
   box.y + (box.h - (bbox.y1 - bbox.y0)).fdiv 2 - bbox.y0)

/-- Twice the horizontal midpoint of the glyphs rendered by
`draw.text((tx, ty), ...)`: the glyphs span `[tx + bbox.x0, tx + bbox.x1]`.
Doubling keeps everything in `Int`. -/
def renderedMidX2 (tx : Int) (bbox : Bbox) : Int :=
  2 * tx + bbox.x0 + bbox.x1

theorem backend_centering (box : PlacementBox) (bbox : Bbox) :
    renderedMidX2 (draw_pos_backend box bbox).1 bbox - (2 * box.x + box.w) = 0 ∨
    renderedMidX2 (draw_pos_backend box bbox).1 bbox - (2 * box.x + box.w) = -1 := by
  simp only [renderedMidX2, draw_pos_backend]
  rw [Int.fdiv_eq_ediv _ (by omega : (0:Int) ≤ 2)]
  omega

theorem batch_centering_offset (bbox : Bbox) :
    2 * bbox.x0 - 1 ≤ renderedMidX2 (draw_pos_batch bbox).1 bbox - (2 * BOX_X + BOX_W) ∧
    renderedMidX2 (draw_pos_batch bbox).1 bbox - (2 * BOX_X + BOX_W) ≤ 2 * bbox.x0 := by
  simp only [renderedMidX2, draw_pos_batch, BOX_X, BOX_W]
  rw [Int.fdiv_eq_ediv _ (by omega : (0:Int) ≤ 2)]
  omega

/-! ## Worker image heap

`Image.open(...)` decodes the template into one heap cell; `img.copy()`
allocates a fresh cell holding the same pixel data; `ImageDraw.Draw(img)` plus
`draw.text(...)` mutates a cell in place.  References are indices into the
heap list. -/

structure WorkerImages (Img : Type) where
  heap : List Img
  templateRef : Nat

/-- `img.copy()` applied to the worker template: allocates a new cell with the
template's pixel data and returns its reference. -/
def heapCopy {Img : Type} [Inhabited Img] (st : WorkerImages Img) :
    WorkerImages Img × Nat :=
  (⟨st.heap ++ [st.heap.getD st.templateRef default], st.templateRef⟩, st.heap.length)

/-- In-place mutation of the image in cell `r` (a `draw.text` call). -/
def heapDraw {Img : Type} [Inhabited Img] (st : WorkerImages Img) (r : Nat)
    (f : Img → Img) : WorkerImages Img :=
  ⟨st.heap.set r (f (st.heap.getD r default)), st.templateRef⟩

theorem heapCopy_heapDraw_preserves {Img : Type} [Inhabited Img]
    (st : WorkerImages Img) (f : Img → Img) (h : st.templateRef < st.heap.length) :
    ((heapDraw (heapCopy st).1 (heapCopy st).2 f).heap[st.templateRef]? =
        st.heap[st.templateRef]?) ∧
    (heapDraw (heapCopy st).1 (heapCopy st).2 f).templateRef = st.templateRef ∧
    st.templateRef < (heapDraw (heapCopy st).1 (heapCopy st).2 f).heap.length := by
  refine ⟨?_, rfl, ?_⟩
  · simp only [heapDraw, heapCopy]
    rw [List.getElem?_set_ne (by omega), List.getElem?_append_left h]
  · simp only [heapDraw, heapCopy, List.length_set, List.length_append]
    omega

/-! ## `process_batch` (generate_certs.py lines 131-172)

The per-batch loop: per item, copy the pre-decoded template, find the font
size (memoized per text length in `font_size_cache`), draw the name at the
centered position, save; any exception is caught and recorded as a failure
result carrying the message and the name.  The abstract `saveErr` oracle
plays the role of exceptions raised by `img.save`. -/

structure BatchItem where
  name : String
  output_path : String
  max_font_size : Int
deriving DecidableEq

/-- `{"success": True}` or `{"success": False, "error": ..., "name": ...}`. -/
inductive BatchResult where
  | success
  | failure (error : String) (name : String)
deriving DecidableEq

structure RenderEnv (Img : Type) where
  meas : String → Int → Bbox
  drawText : Img → Int × Int → String → Int → Img
  saveErr : String → Option String

/-- `font_size_cache` lookup, keyed by text length. -/
def fscLookup (fsc : List (Nat × Int)) (k : Nat) : Option Int :=
  match fsc.find? (fun e => e.1 == k) with
  | some e => some e.2
  | none => none

/-- Lines 146-150: the per-batch font size cache keyed by `len(name)`. -/
def font_size_for (meas : String → Int → Bbox) (fsc : List (Nat × Int))
    (name : String) (max_font_size : Int) : Int × List (Nat × Int) :=
  match fscLookup fsc name.length with
  | some s => (s, fsc)
  | none =>
    let s := find_font_size (meas name) max_font_size BOX_W BOX_H
    (s, (name.length, s) :: fsc)

def process_batch {Img : Type} [Inhabited Img] (env : RenderEnv Img) :
    List BatchItem → WorkerImages Img → List (Nat × Int) →
      List BatchResult × WorkerImages Img × List (Nat × Int)
  | [], st, fsc => ([], st, fsc)
  | item :: rest, st, fsc =>
    let stc := heapCopy st
    let fs := font_size_for env.meas fsc item.name item.max_font_size
    let st2 := heapDraw stc.1 stc.2
      (fun im => env.drawText im (draw_pos_batch (env.meas item.name fs.1)) item.name fs.1)
    let result := match env.saveErr item.output_path with
      | none => BatchResult.success
      | some e => BatchResult.failure e item.name
    let restR := process_batch env rest st2 fs.2
    (result :: restR.1, restR.2.1, restR.2.2)

/-- The outcome of one job as a function of that job alone: success unless
saving to its output path raises, in which case a failure carrying the error
message and the job's name. -/
def jobOutcome (saveErr : String → Option String) (item : BatchItem) : BatchResult :=
  match saveErr item.output_path with
  | none => BatchResult.success
  | some e => BatchResult.failure e item.name

theorem process_batch_results {Img : Type} [Inhabited Img] (env : RenderEnv Img)
    (batch : List BatchItem) :
    ∀ (st : WorkerImages Img) (fsc : List (Nat × Int)),
      (process_batch env batch st fsc).1 = batch.map (jobOutcome env.saveErr) := by
  induction batch with
  | nil => intro st fsc; rfl
  | cons item rest ih =>
    intro st fsc
    simp only [process_batch, List.map_cons]
    refine congrArg₂ _ ?_ (ih _ _)
    rw [jobOutcome]

theorem process_batch_template {Img : Type} [Inhabited Img] (env : RenderEnv Img)
    (batch : List BatchItem) :
    ∀ (st : WorkerImages Img) (fsc : List (Nat × Int)),
      st.templateRef < st.heap.length →
      (process_batch env batch st fsc).2.1.heap[st.templateRef]? =
          st.heap[st.templateRef]? ∧
        (process_batch env batch st fsc).2.1.templateRef = st.templateRef := by
  induction batch with
  | nil => intro st fsc _; exact ⟨rfl, rfl⟩
  | cons item rest ih =>
    intro st fsc h
    simp only [process_batch]
    obtain ⟨hget, htr, hlen⟩ := heapCopy_heapDraw_preserves st
      (fun im => env.drawText im
        (draw_pos_batch (env.meas item.name (font_size_for env.meas fsc item.name item.max_font_size).1))
        item.name (font_size_for env.meas fsc item.name item.max_font_size).1) h
    have := ih (heapDraw (heapCopy st).1 (heapCopy st).2
      (fun im => env.drawText im
        (draw_pos_batch (env.meas item.name (font_size_for env.meas fsc item.name item.max_font_size).1))
        item.name (font_size_for env.meas fsc item.name item.max_font_size).1))
      (font_size_for env.meas fsc item.name item.max_font_size).2 (by rw [htr]; exact hlen)
    rw [htr] at this
    exact ⟨this.1.trans hget, this.2.trans htr⟩

/-- Lines 240: `batches = [tasks[i:i + batch_size] for i in range(0, len(tasks), batch_size)]`.
(Python raises `ValueError` for a zero step; the `B = 0` branch is unused and
only present to make the recursion total.) -/
def makeBatches {α : Type} (B : Nat) : List α → List (List α)
  | [] => []
  | a :: l' =>
    if _hB : B = 0 then []
    else (a :: l').take B :: makeBatches B ((a :: l').drop B)
termination_by l => l.length
decreasing_by
  simp_wf
  omega

theorem makeBatches_flatten {α : Type} (B : Nat) (hB : 0 < B) (l : List α) :
    (makeBatches B l).flatten = l := by
  cases l with
  | nil => simp [makeBatches]
  | cons a l' =>
    simp only [makeBatches]
    rw [dif_neg (by omega)]
    simp only [List.flatten_cons]
    rw [makeBatches_flatten B hB ((a :: l').drop B), List.take_append_drop]
termination_by l.length
decreasing_by
  simp_wf
  omega

def countSuccess (rs : List BatchResult) : Nat :=
  rs.countP (fun r => match r with | BatchResult.success => true | _ => false)

def countFailure (rs : List BatchResult) : Nat :=
  rs.countP (fun r => match r with | BatchResult.failure _ _ => true | _ => false)

theorem countSuccess_add_countFailure (rs : List BatchResult) :
    countSuccess rs + countFailure rs = rs.length := by
  induction rs with
  | nil => rfl
  | cons r rest ih =>
    simp only [countSuccess, countFailure, List.countP_cons, List.length_cons] at *
    cases r <;> simp <;> omega

/-! ## Records

A CSV record (one `csv.DictReader` row) is an association list from field
name to string value.  `row.get(col, "")` returns the mapped value, or the
default when the key is absent. -/

abbrev Row := List (String × String)

def rowGet (row : Row) (key : String) (dflt : String) : String :=
  match row.find? (fun e => e.1 == key) with
  | some e => e.2
  | none => dflt

/-- Python's `str.strip()`: drop leading and trailing whitespace. -/
def pyStrip (s : String) : String :=
  String.mk (((s.toList.dropWhile Char.isWhitespace).reverse.dropWhile
    Char.isWhitespace).reverse)

/-! ## `sanitize_filename` (backend/main.py lines 36-40)

```python
safe = re.sub(r'[^a-zA-Z0-9\s\-_]', '', name)
safe = safe.strip().replace(' ', '_')
return safe[:50] if safe else 'certificate'
``` -/

def sanitize_filename (name : String) : String :=
  let safe := String.mk ((pyStrip (String.mk (name.toList.filter
    (fun c => c.isAlphanum || c.isWhitespace || c = '-' || c = '_')))).toList.map
      (fun c => if c = ' ' then '_' else c))
  if safe = "" then "certificate" else String.mk (safe.toList.take 50)

/-! ## `draw_certificate` (backend/main.py lines 132-171)

Copies the template, fits the font with `get_font_for_text`, measures the
final bounding box, draws at the bottom-anchored centered position with the
bbox-origin correction, and returns the copy's reference. -/

def draw_certificate {Img : Type} [Inhabited Img] (fenv : FontEnv)
    (measF : String → Font → Bbox) (drawText : Img → Int × Int → String → Font → Img)
    (st : WorkerImages Img) (name : String) (box : PlacementBox)
    (max_font_size : Int) (font_filename : String) : WorkerImages Img × Nat :=
  let stc := heapCopy st
  let fr := get_font_for_text fenv measF name box.w box.h max_font_size font_filename
  let bbox := measF name fr.1
  (heapDraw stc.1 stc.2 (fun im => drawText im (draw_pos_backend box bbox) name fr.1),
   stc.2)

/-! ## `generate_certificates` loop (backend/main.py lines 235-256)

```python
for row in rows:
    name = row.get(name_column, "").strip()
    if not name:
        continue
    cert_img = draw_certificate(template_img, name, box, font_size, font_color, font_file)
    safe_name = sanitize_filename(name)
    zf.writestr(f"certificates_jpg/{safe_name}.jpg", ...)
    zf.writestr(f"certificates_pdf/{safe_name}.pdf", ...)
    generated_count += 1
```
Returns the final image heap, the list of archive entry names written, and
`generated_count`. -/

def generate_certificates {Img : Type} [Inhabited Img] (fenv : FontEnv)
    (measF : String → Font → Bbox) (drawText : Img → Int × Int → String → Font → Img)
    (st : WorkerImages Img) (rows : List Row) (name_column : String)
    (box : PlacementBox) (font_size : Int) (font_file : String) :
    WorkerImages Img × List String × Nat :=
  match rows with
  | [] => (st, [], 0)
  | row :: rest =>
    let name := pyStrip (rowGet row name_column "")
    if name = "" then
      generate_certificates fenv measF drawText st rest name_column box font_size font_file
    else
      let st1 := (draw_certificate fenv measF drawText st name box font_size font_file).1
      let safe := sanitize_filename name
      let r := generate_certificates fenv measF drawText st1 rest name_column box
        font_size font_file
      (r.1, ("certificates_jpg/" ++ safe ++ ".jpg") ::
        ("certificates_pdf/" ++ safe ++ ".pdf") :: r.2.1, r.2.2 + 1)

theorem generate_certificates_count {Img : Type} [Inhabited Img] (fenv : FontEnv)
    (measF : String → Font → Bbox) (drawText : Img → Int × Int → String → Font → Img)
    (rows : List Row) (name_column : String) (box : PlacementBox) (font_size : Int)
    (font_file : String) :
    ∀ st : WorkerImages Img,
      (generate_certificates fenv measF drawText st rows name_column box font_size
          font_file).2.2 =
        (rows.countP (fun row => !(pyStrip (rowGet row name_column "") == ""))) ∧
      (generate_certificates fenv measF drawText st rows name_column box font_size
          font_file).2.1.length =
        2 * (generate_certificates fenv measF drawText st rows name_column box font_size
          font_file).2.2 := by
  induction rows with
  | nil => intro st; exact ⟨rfl, rfl⟩
  | cons row rest ih =>
    intro st
    simp only [generate_certificates, List.countP_cons]
    by_cases h : pyStrip (rowGet row name_column "") = ""
    · rw [if_pos h]
      refine ⟨?_, (ih st).2⟩
      rw [(ih st).1]
      simp [h]
    · rw [if_neg h]
      have hb : (pyStrip (rowGet row name_column "") == "") = false := by simpa using h
      constructor
      · rw [(ih _).1]; simp [hb]
      · simp only [List.length_cons]
        rw [(ih _).1, (ih _).2, (ih _).1]
        omega

theorem generate_certificates_template {Img : Type} [Inhabited Img] (fenv : FontEnv)
    (measF : String → Font → Bbox) (drawText : Img → Int × Int → String → Font → Img)
    (rows : List Row) (name_column : String) (box : PlacementBox) (font_size : Int)
    (font_file : String) :
    ∀ st : WorkerImages Img, st.templateRef < st.heap.length →
      (generate_certificates fenv measF drawText st rows name_column box font_size
          font_file).1.heap[st.templateRef]? = st.heap[st.templateRef]? ∧
      (generate_certificates fenv measF drawText st rows name_column box font_size
          font_file).1.templateRef = st.templateRef := by
  induction rows with
  | nil => intro st _; exact ⟨rfl, rfl⟩
  | cons row rest ih =>
    intro st h
    simp only [generate_certificates]
    by_cases hname : pyStrip (rowGet row name_column "") = ""
    · rw [if_pos hname]; exact ih st h
    · rw [if_neg hname]
      simp only [draw_certificate]
      set nm := pyStrip (rowGet row name_column "") with hnm
      set g := fun im => drawText im
        (draw_pos_backend box (measF nm
          (get_font_for_text fenv measF nm box.w box.h font_size font_file).1)) nm
        (get_font_for_text fenv measF nm box.w box.h font_size font_file).1 with hg
      obtain ⟨hget, htr, hlen⟩ := heapCopy_heapDraw_preserves st g h
      have := ih (heapDraw (heapCopy st).1 (heapCopy st).2 g) (by rw [htr]; exact hlen)
      rw [htr] at this
      exact ⟨this.1.trans hget, this.2.trans htr⟩

/-! ## Batch task preparation (generate_certs.py lines 232-237)

```python
for i, row in enumerate(rows):
    name = row[args.field]
    safe_name = "".join(c if c.isalnum() or c in " -_" else "_" for c in name)
    output_path = str(output_dir / f"{i+1:05d}_{safe_name}.jpg")
    tasks.append((name, output_path, args.font_size))
```
Note: every row yields a task; there is no skip for empty names.
(`row[args.field]` raises `KeyError` for an absent key; the embedding's
default is only ever exercised with the field present, which `main` checks
against the first row before building tasks.) -/

def safe_name_batch (name : String) : String :=
  String.mk (name.toList.map (fun c =>
    if c.isAlphanum || c = ' ' || c = '-' || c = '_' then c else '_'))

/-- `f"{n:05d}"` for the non-negative indices used here. -/
def pad5 (n : Nat) : String :=
  String.mk (List.replicate (5 - (toString n).length) '0') ++ toString n

def main_tasks (output_dir : String) (field : String) (font_size : Int)
    (rows : List Row) : List BatchItem :=
  rows.enum.map (fun p =>
    { name := rowGet p.2 field ""
      output_path := output_dir ++ "/" ++ pad5 (p.1 + 1) ++ "_" ++
        safe_name_batch (rowGet p.2 field "") ++ ".jpg"
      max_font_size := font_size })

theorem main_tasks_length (output_dir field : String) (font_size : Int)
    (rows : List Row) : (main_tasks output_dir field font_size rows).length = rows.length := by
  simp [main_tasks]

/-! ## Concrete instances used by witnesses and counterexamples -/

def measZero : Int → Bbox := fun _ => ⟨0, 0, 0, 0⟩

def measFZero : String → Font → Bbox := fun _ _ => ⟨0, 0, 0, 0⟩

/-- Environment in which no path exists and every font load fails. -/
def fenvNone : FontEnv := ⟨fun _ => false, fun _ _ => false⟩

/-- Environment in which every path exists and every font load succeeds,
except the configured file "cfg.ttf". -/
def fenvOthers : FontEnv := ⟨fun _ => true, fun p _ => !(p == "cfg.ttf")⟩

def envUnit : RenderEnv Unit := ⟨fun _ _ => ⟨0, 0, 0, 0⟩, fun i _ _ _ => i, fun _ => none⟩

def drawTextUnit : Unit → Int × Int → String → Font → Unit := fun i _ _ _ => i

/-- A measured bounding box with a non-zero origin offset `x0 = 2`. -/
def bboxWide : Bbox := ⟨2, 5, 102, 30⟩

def measWide : Int → Bbox := fun _ => bboxWide

def emptyNameRow : Row := [("first_name", "")]

def cache12 : FontCacheT := [(12, Font.load_default)]

/-! ## Claims -/

/-- C1: for every text, box and maxSize, the fit operation returns the first
size of the descending sequence maxSize, maxSize - step, ... (step 4 with
floor 20 in the batch `find_font_size`; step 2 with floor 10 in the web
`get_font_for_text`) whose measured bounding box satisfies both
`width ≤ box.width - padding` and `height ≤ box.height - padding`, and when
no candidate at or above the floor fits it returns the floor size (web: the
font loaded at the floor size) without any error. -/
theorem c1_fit_first_candidate (meas : Int → Bbox) (box_w box_h max_size : Int)
    (fenv : FontEnv) (measF : String → Font → Bbox) (name : String)
    (bw bh maxW : Int) (font_filename : String) :
    find_font_size meas max_size box_w box_h =
      ((fit_candidates max_size).find? (batchFitsB meas box_w box_h)).getD 20 ∧
    get_font_for_text fenv measF name bw bh maxW font_filename =
      (load_font fenv font_filename
        (((web_candidates maxW).find?
            (webFitsB fenv measF name font_filename bw bh)).getD 10),
       ((web_candidates maxW).find?
            (webFitsB fenv measF name font_filename bw bh)).getD 10) :=
  ⟨find_font_size_eq_find meas box_w box_h max_size,
   get_font_for_text_eq_find fenv measF name bw bh maxW font_filename⟩

/-- C2: processing a batch of N jobs yields exactly N results, one per job in
order, each a success or a failure carrying the triggering name and error
message; a per-job save exception affects only that job's result, and the
full pipeline (partitioning the tasks into batches of at most B and
concatenating the per-batch results) yields exactly one result per task. -/
theorem c2_batch_completeness {Img : Type} [Inhabited Img] (env : RenderEnv Img)
    (batch tasks : List BatchItem) (st : WorkerImages Img) (fsc : List (Nat × Int))
    (B : Nat) :
    ((process_batch env batch st fsc).1 = batch.map (jobOutcome env.saveErr) ∧
     (process_batch env batch st fsc).1.length = batch.length ∧
     countSuccess (process_batch env batch st fsc).1 +
       countFailure (process_batch env batch st fsc).1 = batch.length) ∧
    (0 < B →
      ((makeBatches B tasks).map (fun b => (process_batch env b st fsc).1)).flatten =
        tasks.map (jobOutcome env.saveErr)) := by
  have hres := process_batch_results env batch st fsc
  refine ⟨⟨hres, ?_, ?_⟩, ?_⟩
  · rw [hres, List.length_map]
  · rw [countSuccess_add_countFailure, hres, List.length_map]
  · intro hB
    have h1 : (makeBatches B tasks).map (fun b => (process_batch env b st fsc).1) =
        (makeBatches B tasks).map (fun b => b.map (jobOutcome env.saveErr)) :=
      List.map_congr_left (fun b _ => process_batch_results env b st fsc)
    rw [h1, ← List.map_flatten, makeBatches_flatten B hB tasks]

theorem c2_batch_completeness_witness :
    ((makeBatches 1 [(⟨"Al", "output/00001_Al.jpg", 60⟩ : BatchItem)]).map
        (fun b => (process_batch envUnit b ⟨[()], 0⟩ []).1)).flatten =
      [(⟨"Al", "output/00001_Al.jpg", 60⟩ : BatchItem)].map (jobOutcome envUnit.saveErr) :=
  (c2_batch_completeness envUnit [] [⟨"Al", "output/00001_Al.jpg", 60⟩]
    ⟨[()], 0⟩ [] 1).2 (by norm_num)

/-- C3: for every text and box, when maxSize is at least the floor size the
returned fit size lies in the closed interval [floorSize, maxSize] (floor 20
for the batch variant, floor 10 for the web variant). -/
theorem c3_fit_in_range (meas : Int → Bbox) (box_w box_h max_size : Int)
    (fenv : FontEnv) (measF : String → Font → Bbox) (name : String)
    (bw bh maxW : Int) (font_filename : String) :
    (20 ≤ max_size →
      20 ≤ find_font_size meas max_size box_w box_h ∧
      find_font_size meas max_size box_w box_h ≤ max_size) ∧
    (10 ≤ maxW →
      10 ≤ (get_font_for_text fenv measF name bw bh maxW font_filename).2 ∧
      (get_font_for_text fenv measF name bw bh maxW font_filename).2 ≤ maxW) :=
  ⟨fun h => ⟨find_font_size_ge meas box_w box_h max_size,
      find_font_size_le meas box_w box_h max_size h⟩,
   fun h => ⟨get_font_for_text_ge fenv measF name bw bh maxW font_filename,
      get_font_for_text_le fenv measF name bw bh maxW font_filename h⟩⟩

theorem c3_fit_in_range_witness :
    (20 ≤ find_font_size measZero 60 840 199 ∧ find_font_size measZero 60 840 199 ≤ 60) ∧
    (10 ≤ (get_font_for_text fenvNone measFZero "Al" 200 100 60 "font.ttf").2 ∧
      (get_font_for_text fenvNone measFZero "Al" 200 100 60 "font.ttf").2 ≤ 60) :=
  ⟨(c3_fit_in_range measZero 840 199 60 fenvNone measFZero "Al" 200 100 60 "font.ttf").1
      (by norm_num),
   (c3_fit_in_range measZero 840 199 60 fenvNone measFZero "Al" 200 100 60 "font.ttf").2
      (by norm_num)⟩

/-- C4 counterexample: the claim asserts that when loading the configured
font resource fails, the loader falls back through an ordered list of
platform-default font paths before resorting to the built-in fallback font.
The batch variant's `get_font` does not: in an environment where the
configured path fails but every platform-default path loads fine, `get_font`
returns the built-in `load_default` font, whereas the claimed chain would
return the first platform-default font, a different font. -/
theorem c4_font_fallback_counterexample :
    (get_font fenvOthers "cfg.ttf" [] 30).1 = Font.load_default ∧
    claimedFontFallback fenvOthers "cfg.ttf" fallback_paths 30 =
      Font.truetype "/usr/share/fonts/truetype/dejavu/DejaVuSans.ttf" 30 ∧
    Font.load_default ≠
      Font.truetype "/usr/share/fonts/truetype/dejavu/DejaVuSans.ttf" 30 := by
  refine ⟨by decide, by decide, by decide⟩

/-- C4 amended: neither font-loading operation ever throws and both always
return a usable font.  In any environment where a successful load implies the
path exists, the web variant's `load_font` implements exactly the claimed
chain: configured resource, then the ordered platform-default list, then the
built-in fallback.  The batch variant's `get_font` (on a cold cache)
implements the chain with an empty platform-default list: configured
resource, then directly the built-in fallback. -/
theorem c4_font_fallback_amended (env : FontEnv) (font_filename font_path : String)
    (size : Int) (hcons : ∀ p s, env.loadOk p s = true → env.pathExists p = true) :
    load_font env font_filename size =
      claimedFontFallback env (FONTS_DIR ++ "/" ++ font_filename) fallback_paths size ∧
    (get_font env font_path [] size).1 = claimedFontFallback env font_path [] size := by
  constructor
  · rw [load_font, claimedFontFallback]
    by_cases hok : env.loadOk (FONTS_DIR ++ "/" ++ font_filename) size = true
    · rw [hcons _ _ hok]
      simp [truetypeLoad, hok]
    · have hf : env.loadOk (FONTS_DIR ++ "/" ++ font_filename) size = false := by
        simpa using hok
      simp [truetypeLoad, hf]
  · cases h : truetypeLoad env font_path size with
    | some f => simp [get_font, cacheLookup, claimedFontFallback, tryFallbacks, h]
    | none => simp [get_font, cacheLookup, claimedFontFallback, tryFallbacks, h]

theorem c4_font_fallback_amended_witness :
    load_font fenvNone "font.ttf" 30 =
      claimedFontFallback fenvNone (FONTS_DIR ++ "/" ++ "font.ttf") fallback_paths 30 ∧
    (get_font fenvNone "path.ttf" [] 30).1 = claimedFontFallback fenvNone "path.ttf" [] 30 :=
  c4_font_fallback_amended fenvNone "font.ttf" "path.ttf" 30
    (by intro p s hp; simp [fenvNone] at hp)

/-- C5 counterexample: the claim asserts that for every render both draw
coordinates are corrected by subtracting the measured bounding box's origin
offsets, so that any successful fit is horizontally centered within one
pixel.  The batch variant performs no such correction: with a measurement
whose bounding box has origin offset `x0 = 2` (a successful fit at size 60 in
the batch box), the batch draw position differs from the claimed corrected
position, and the rendered horizontal midpoint sits 2 pixels right of the
box's midpoint (doubled-coordinate difference 4 > 2). -/
theorem c5_draw_position_counterexample :
    find_font_size measWide 60 BOX_W BOX_H = 60 ∧
    draw_pos_batch (measWide 60) ≠
      claimedDrawPosCenter ⟨BOX_X, BOX_Y, BOX_W, BOX_H⟩ (measWide 60) ∧
    renderedMidX2 (draw_pos_batch (measWide 60)).1 (measWide 60) -
      (2 * BOX_X + BOX_W) = 4 := by
  refine ⟨?_, by decide, by decide⟩
  rw [find_font_size, dif_pos (by norm_num)]
  rw [if_pos (by norm_num [measWide, bboxWide, BOX_W, BOX_H])]

/-- C5 amended: the web variant `draw_certificate` subtracts both bbox origin
offsets from its draw position, and for every box and measured bounding box
the rendered horizontal midpoint is within one pixel of the box's midpoint
(doubled-coordinate difference 0 or -1).  The batch variant `process_batch`
computes its position without the bbox-origin correction, so its rendered
horizontal midpoint deviates from the box's midpoint by the bbox's origin
offset `bbox[0]` (doubled-coordinate difference within [2*x0 - 1, 2*x0]),
which exceeds one pixel whenever `|bbox[0]| ≥ 2`. -/
theorem c5_draw_position_amended (box : PlacementBox) (bbox : Bbox) :
    (renderedMidX2 (draw_pos_backend box bbox).1 bbox - (2 * box.x + box.w) = 0 ∨
     renderedMidX2 (draw_pos_backend box bbox).1 bbox - (2 * box.x + box.w) = -1) ∧
    (2 * bbox.x0 - 1 ≤ renderedMidX2 (draw_pos_batch bbox).1 bbox -
        (2 * BOX_X + BOX_W) ∧
     renderedMidX2 (draw_pos_batch bbox).1 bbox - (2 * BOX_X + BOX_W) ≤ 2 * bbox.x0) :=
  ⟨backend_centering box bbox, batch_centering_offset bbox⟩

/-- C6: for a fixed text, measurement and maximum size, if box b2 contains
box b1 (componentwise at least as wide and as tall, at least one dimension
strictly larger), the fitted size for b2 is at least the fitted size for b1,
in both the batch and the web variant. -/
theorem c6_fit_monotone (meas : Int → Bbox) (bw₁ bh₁ bw₂ bh₂ max_size : Int)
    (fenv : FontEnv) (measF : String → Font → Bbox) (name : String)
    (font_filename : String) (hw : bw₁ ≤ bw₂) (hh : bh₁ ≤ bh₂)
    (_hstrict : bw₁ < bw₂ ∨ bh₁ < bh₂) :
    find_font_size meas max_size bw₁ bh₁ ≤ find_font_size meas max_size bw₂ bh₂ ∧
    (get_font_for_text fenv measF name bw₁ bh₁ max_size font_filename).2 ≤
      (get_font_for_text fenv measF name bw₂ bh₂ max_size font_filename).2 :=
  ⟨find_font_size_mono meas bw₁ bh₁ bw₂ bh₂ max_size hw hh,
   get_font_for_text_mono fenv measF name bw₁ bh₁ bw₂ bh₂ max_size font_filename hw hh⟩

theorem c6_fit_monotone_witness :
    find_font_size measZero 60 100 100 ≤ find_font_size measZero 60 200 150 ∧
    (get_font_for_text fenvNone measFZero "Al" 100 100 60 "font.ttf").2 ≤
      (get_font_for_text fenvNone measFZero "Al" 200 150 60 "font.ttf").2 :=
  c6_fit_monotone measZero 100 100 200 150 60 fenvNone measFZero "Al" "font.ttf"
    (by norm_num) (by norm_num) (Or.inl (by norm_num))

/-- C7: rendering never mutates the shared decoded template: both the batch
worker loop (`process_batch`) and the web renderer loop driving
`draw_certificate` draw only on fresh copies, so after any sequence of
renders the template cell of the image heap holds exactly its original
contents (and the template reference is unchanged). -/
theorem c7_template_preserved {Img : Type} [Inhabited Img] (env : RenderEnv Img)
    (batch : List BatchItem) (st : WorkerImages Img) (fsc : List (Nat × Int))
    (fenv : FontEnv) (measF : String → Font → Bbox)
    (drawText : Img → Int × Int → String → Font → Img) (rows : List Row)
    (name_column : String) (box : PlacementBox) (font_size : Int) (font_file : String)
    (h : st.templateRef < st.heap.length) :
    ((process_batch env batch st fsc).2.1.heap[st.templateRef]? =
        st.heap[st.templateRef]? ∧
     (process_batch env batch st fsc).2.1.templateRef = st.templateRef) ∧
    ((generate_certificates fenv measF drawText st rows name_column box font_size
        font_file).1.heap[st.templateRef]? = st.heap[st.templateRef]? ∧
     (generate_certificates fenv measF drawText st rows name_column box font_size
        font_file).1.templateRef = st.templateRef) :=
  ⟨process_batch_template env batch st fsc h,
   generate_certificates_template fenv measF drawText rows name_column box font_size
     font_file st h⟩

theorem c7_template_preserved_witness :
    ((process_batch envUnit [⟨"Al", "p.jpg", 60⟩] ⟨[()], 0⟩ []).2.1.heap[(0 : Nat)]? =
        ([()] : List Unit)[(0 : Nat)]? ∧
     (process_batch envUnit [⟨"Al", "p.jpg", 60⟩] ⟨[()], 0⟩ []).2.1.templateRef = 0) ∧
    ((generate_certificates fenvNone measFZero drawTextUnit ⟨[()], 0⟩ [emptyNameRow]
        "first_name" ⟨0, 0, 100, 50⟩ 60 "font.ttf").1.heap[(0 : Nat)]? =
        ([()] : List Unit)[(0 : Nat)]? ∧
     (generate_certificates fenvNone measFZero drawTextUnit ⟨[()], 0⟩ [emptyNameRow]
        "first_name" ⟨0, 0, 100, 50⟩ 60 "font.ttf").1.templateRef = 0) :=
  c7_template_preserved envUnit [⟨"Al", "p.jpg", 60⟩] ⟨[()], 0⟩ [] fenvNone measFZero
    drawTextUnit [emptyNameRow] "first_name" ⟨0, 0, 100, 50⟩ 60 "font.ttf" (by decide)

/-- C8 counterexample: the claim asserts that every record whose designated
text field is missing or empty is skipped, with no image rendered and no
output produced.  The batch variant's `main` builds one render job per row
with no emptiness check: a single record with an empty `first_name` yields
one task, and processing that task renders and saves an output (a success
result), rather than skipping the record. -/
theorem c8_skip_empty_counterexample :
    (main_tasks "output" "first_name" 72 [emptyNameRow]).length = 1 ∧
    (process_batch envUnit (main_tasks "output" "first_name" 72 [emptyNameRow])
        ⟨[()], 0⟩ []).1 = [BatchResult.success] := by
  constructor
  · rfl
  · rw [process_batch_results]
    rfl

/-- C8 amended: the web variant skips records whose designated field is
missing or empty — its generated count equals the number of records with a
non-empty stripped value, with two archive entries per generated record and
no error for skipped ones — while the batch variant creates exactly one
render job per record, empty text included, so empty records are rendered
rather than skipped. -/
theorem c8_skip_empty_amended {Img : Type} [Inhabited Img] (fenv : FontEnv)
    (measF : String → Font → Bbox) (drawText : Img → Int × Int → String → Font → Img)
    (st : WorkerImages Img) (rows : List Row) (name_column : String)
    (box : PlacementBox) (font_size : Int) (font_file : String)
    (output_dir field : String) (batch_font_size : Int) :
    (generate_certificates fenv measF drawText st rows name_column box font_size
        font_file).2.2 =
      rows.countP (fun row => !(pyStrip (rowGet row name_column "") == "")) ∧
    (generate_certificates fenv measF drawText st rows name_column box font_size
        font_file).2.1.length =
      2 * (generate_certificates fenv measF drawText st rows name_column box font_size
        font_file).2.2 ∧
    (main_tasks output_dir field batch_font_size rows).length = rows.length :=
  ⟨(generate_certificates_count fenv measF drawText rows name_column box font_size
      font_file st).1,
   (generate_certificates_count fenv measF drawText rows name_column box font_size
      font_file st).2,
   main_tasks_length output_dir field batch_font_size rows⟩

/-- C9: within one worker's lifetime the font cache never evicts or replaces
an entry: a hit returns the stored font with the cache unchanged (no load);
an entry survives any sequence of further `get_font` calls unchanged; the
first call for a size stores exactly the font it returns; and after any
sequence of intermediate calls, a repeated request for that size returns the
identical stored font and leaves the cache untouched, so the font resource is
loaded at most once per distinct requested size. -/
theorem c9_font_cache (env : FontEnv) (font_path : String) (cache : FontCacheT)
    (s s' : Int) (f : Font) (reqs : List Int) (h : cacheLookup cache s' = some f) :
    get_font env font_path cache s' = (f, cache) ∧
    cacheLookup (runGets env font_path cache reqs) s' = some f ∧
    cacheLookup (get_font env font_path cache s).2 s =
      some (get_font env font_path cache s).1 ∧
    get_font env font_path (runGets env font_path (get_font env font_path cache s).2 reqs) s =
      ((get_font env font_path cache s).1,
       runGets env font_path (get_font env font_path cache s).2 reqs) :=
  ⟨get_font_hit env font_path cache s' f h,
   runGets_preserves env font_path reqs cache s' f h,
   get_font_populates env font_path cache s,
   get_font_hit env font_path _ s _
     (runGets_preserves env font_path reqs _ s _ (get_font_populates env font_path cache s))⟩

theorem c9_font_cache_witness :
    get_font fenvNone "font.ttf" cache12 12 = (Font.load_default, cache12) ∧
    cacheLookup (runGets fenvNone "font.ttf" cache12 [30, 12, 44]) 12 =
      some Font.load_default ∧
    cacheLookup (get_font fenvNone "font.ttf" cache12 30).2 30 =
      some (get_font fenvNone "font.ttf" cache12 30).1 ∧
    get_font fenvNone "font.ttf"
        (runGets fenvNone "font.ttf" (get_font fenvNone "font.ttf" cache12 30).2
          [30, 12, 44]) 30 =
      ((get_font fenvNone "font.ttf" cache12 30).1,
       runGets fenvNone "font.ttf" (get_font fenvNone "font.ttf" cache12 30).2
         [30, 12, 44]) :=
  c9_font_cache fenvNone "font.ttf" cache12 30 12 Font.load_default [30, 12, 44] (by decide)

/-- C10: when the requested maximum size is strictly below the floor (20 in
the batch variant, 10 in the web variant), the loop body never runs — the
candidate sequence is empty, so no measurement happens and the result does
not depend on the measurement oracle — and the fit returns exactly the floor
size, which is strictly greater than the requested maximum. -/
theorem c10_below_floor (meas : Int → Bbox) (box_w box_h max_size : Int)
    (fenv : FontEnv) (measF : String → Font → Bbox) (name : String)
    (bw bh maxW : Int) (font_filename : String) :
    (max_size < 20 →
      find_font_size meas max_size box_w box_h = 20 ∧
      fit_candidates max_size = [] ∧
      max_size < find_font_size meas max_size box_w box_h) ∧
    (maxW < 10 →
      get_font_for_text fenv measF name bw bh maxW font_filename =
        (load_font fenv font_filename 10, 10) ∧
      web_candidates maxW = [] ∧
      maxW < (get_font_for_text fenv measF name bw bh maxW font_filename).2) := by
  constructor
  · intro h
    refine ⟨find_font_size_of_lt meas box_w box_h max_size (by omega),
      fit_candidates_of_lt max_size (by omega), ?_⟩
    rw [find_font_size_of_lt meas box_w box_h max_size (by omega)]
    exact h
  · intro h
    refine ⟨get_font_for_text_of_lt fenv measF name bw bh maxW font_filename (by omega),
      web_candidates_of_lt maxW (by omega), ?_⟩
    rw [get_font_for_text_of_lt fenv measF name bw bh maxW font_filename (by omega)]
    exact h

theorem c10_below_floor_witness :
    (find_font_size measZero 5 840 199 = 20 ∧
     fit_candidates 5 = [] ∧
     (5 : Int) < find_font_size measZero 5 840 199) ∧
    (get_font_for_text fenvNone measFZero "Al" 200 100 5 "font.ttf" =
        (load_font fenvNone "font.ttf" 10, 10) ∧
     web_candidates 5 = [] ∧
     (5 : Int) < (get_font_for_text fenvNone measFZero "Al" 200 100 5 "font.ttf").2) :=
  ⟨(c10_below_floor measZero 840 199 5 fenvNone measFZero "Al" 200 100 5 "font.ttf").1
      (by norm_num),
   (c10_below_floor measZero 840 199 5 fenvNone measFZero "Al" 200 100 5 "font.ttf").2
      (by norm_num)⟩
